import Mathlib

/-!
Verification of the shellinspector spec against a shallow embedding of
`src/shellinspector/parser.py` and `src/shellinspector/runner.py`.

Python strings are modelled as `List Char` (`Str`), dictionaries as
association lists with dict-style update, and `re.search` / the shell /
the embedded python host as explicit oracle parameters, so every
definition stays executable.
-/

set_option maxHeartbeats 1000000

/-- Python `str` modelled as a list of characters. -/
abbrev Str := List Char

/-- `class ExecutionMode(Enum)` from parser.py: `USER = "$"`, `ROOT = "%"`,
`PYTHON = "!"`. -/
inductive ExecutionMode where
  | USER
  | ROOT
  | PYTHON
deriving DecidableEq, Repr

/-- `class AssertMode(Enum)` from parser.py: `LITERAL = "="`, `REGEX = "~"`,
`IGNORE = "_"`. -/
inductive AssertMode where
  | LITERAL
  | REGEX
  | IGNORE
deriving DecidableEq, Repr

/-- `@dataclasses.dataclass class Command` from parser.py.  The `specfile`
back-pointer field is omitted (it only links the object graph); `user` and
`session_name` are `Option` because the Python fields hold `None` when the
header leaves them out. -/
structure Command where
  execution_mode : ExecutionMode
  command : Str
  user : Option Str
  session_name : Option Str
  host : Str
  assert_mode : AssertMode
  expected : Str
  source_file : Str
  source_line_no : Nat
  line : Str
  has_heredoc : Bool
deriving DecidableEq, Repr

instance : Inhabited Command :=
  ⟨⟨ExecutionMode.USER, [], none, none, [], AssertMode.LITERAL, [], [], 0, [], false⟩⟩

namespace ShellRunner

/-- The `output_matches` computation at the top of
`ShellRunner._check_result` (runner.py lines 336-343).  `re.search` with
`re.MULTILINE` is abstracted by the `regexSearch pattern text` parameter;
the truthiness of the returned match object is its `Bool` result. -/
def output_matches (regexSearch : Str → Str → Bool) (cmd : Command)
    (command_output : Str) : Bool :=
  match cmd.assert_mode with
  | AssertMode.LITERAL => command_output == cmd.expected
  | AssertMode.REGEX => regexSearch cmd.expected command_output
  | AssertMode.IGNORE => true

/-- The verdict reported by `ShellRunner._check_result`: either
`COMMAND_PASSED` with `returncode`/`actual`, or `COMMAND_FAILED` with a
`reasons` set plus `returncode`/`actual`. -/
inductive CheckVerdict where
  | passed (returncode : Int) (actual : Str)
  | failed (reasons : Finset Str) (returncode : Int) (actual : Str)
deriving DecidableEq

/-- `ShellRunner._check_result` (runner.py lines 335-374): pass iff the
output matches and the returncode is 0; otherwise fail with a reasons set
built by `reasons.add("returncode")` when `returncode != 0` and
`reasons.add("output")` when the output did not match. -/
def check_result (regexSearch : Str → Str → Bool) (cmd : Command)
    (command_output : Str) (returncode : Int) : CheckVerdict :=
  let m := output_matches regexSearch cmd command_output
  if m ∧ returncode = 0 then
    CheckVerdict.passed returncode command_output
  else
    let r1 : Finset Str := if returncode ≠ 0 then {("returncode".toList)} else ∅
    let reasons : Finset Str := if m = false then insert ("output".toList) r1 else r1
    CheckVerdict.failed reasons returncode command_output

end ShellRunner

/-! ## Parser: the header regex `RE_PREFIX` and `parse_commands` -/

/-- `[a-z]` character class used by the header regex. -/
def isLowerAlpha (c : Char) : Bool := 'a' ≤ c && c ≤ 'z'

/-- `[a-z0-9]` character class used for session names. -/
def isLowerDigit (c : Char) : Bool := isLowerAlpha c || ('0' ≤ c && c ≤ '9')

/-- The `execution_mode` glyph class `[$%!]` of the header regex. -/
def execOfChar (c : Char) : Option ExecutionMode :=
  if c = '$' then some ExecutionMode.USER
  else if c = '%' then some ExecutionMode.ROOT
  else if c = '!' then some ExecutionMode.PYTHON
  else none

/-- The `assert_mode` glyph class `[=~_]` of the header regex. -/
def amodeOfChar (c : Char) : Option AssertMode :=
  if c = '=' then some AssertMode.LITERAL
  else if c = '~' then some AssertMode.REGEX
  else if c = '_' then some AssertMode.IGNORE
  else none

/-- The named capture groups of the header regex (parser.py lines 161-175).
`user`/`host` are `none` when the bracket group is absent or the part is
empty (a `[a-z]+` group that matches nothing is `None` in Python). -/
structure HeaderGroups where
  user : Option Str
  session_name : Option Str
  host : Option Str
  execution_mode : ExecutionMode
  assert_mode : Option AssertMode
deriving DecidableEq, Repr

/-- Tail of the header regex after the optional bracket group: one
execution glyph, an optional assert glyph, then the single mandatory
space.  Returns the groups and the remainder of the line (the command
text).  When an assert glyph is present but not followed by a space the
regex backtracks to the empty alternative of `[=~_]?`, which then fails
because the glyph itself is not a space. -/
def reHeaderGlyphs (user sess host : Option Str) : Str → Option (HeaderGroups × Str)
  | c :: rest =>
    match execOfChar c with
    | none => none
    | some em =>
      match rest with
      | [] => none
      | a :: rest2 =>
        match amodeOfChar a with
        | some am =>
          match rest2 with
          | [] => none
          | sp :: rest3 =>
            if sp = ' ' then some (⟨user, sess, host, em, some am⟩, rest3) else none
        | none => if a = ' ' then some (⟨user, sess, host, em, none⟩, rest2) else none
  | [] => none

/-- Continuation of the bracket group after the user/session part: `@`,
optional host letters, `]`, then the glyph tail. -/
def reHeaderAfterUser (user sess : Option Str) (r : Str) : Option (HeaderGroups × Str) :=
  match r with
  | [] => none
  | at_ :: r4 =>
    if at_ = '@' then
      let h := r4.takeWhile isLowerAlpha
      let r5 := r4.dropWhile isLowerAlpha
      let host := if h.isEmpty then none else some h
      (match r5 with
       | [] => none
       | br :: r6 => if br = ']' then reHeaderGlyphs user sess host r6 else none)
    else none

/-- `RE_PREFIX.match` (parser.py lines 161-175): optional
`[user(:session)?@host]` bracket group followed by the glyphs and one
mandatory space.  All sub-parts are deterministic (greedy character
classes delimited by punctuation), and when the line starts with `[` a
failed bracket group cannot be rescued by the empty alternative because
`[` is not an execution glyph, so this function is the regex's exact
matching behaviour. -/
def reHeaderMatch : Str → Option (HeaderGroups × Str)
  | [] => none
  | c :: rest =>
    if c = '[' then
      let u := rest.takeWhile isLowerAlpha
      let r1 := rest.dropWhile isLowerAlpha
      let user := if u.isEmpty then none else some u
      (match r1 with
       | [] => none
       | c2 :: r2 =>
         if c2 = ':' then
           let s := r2.takeWhile isLowerDigit
           let r3 := r2.dropWhile isLowerDigit
           if s.isEmpty then none else reHeaderAfterUser user (some s) r3
         else reHeaderAfterUser user none (c2 :: r2))
    else reHeaderGlyphs none none none (c :: rest)

/-- Python `str.endswith`. -/
def endsWithStr (s suffix : Str) : Bool := suffix.isSuffixOf s

/-- The `Command(...)` construction of `parse_commands` for a line whose
header matched (parser.py lines 286-325): assert mode defaults to
`LITERAL`, host defaults to `"remote"`, `%` lines force `user = "root"`,
and a command text ending in `<<HERE` opens a here-document. -/
def build_command (source_file : Str) (line_no : Nat) (line : Str)
    (g : HeaderGroups) (command : Str) : Command :=
  let assert_mode := g.assert_mode.getD AssertMode.LITERAL
  let host := g.host.getD ("remote".toList)
  let user := if g.execution_mode = ExecutionMode.ROOT then some ("root".toList) else g.user
  let has_heredoc := endsWithStr command ("<<HERE".toList)
  ⟨g.execution_mode, command, user, g.session_name, host, assert_mode, [],
    source_file, line_no, line, has_heredoc⟩

/-- `@dataclasses.dataclass class Error` from parser.py. -/
structure PError where
  source_file : Str
  source_line_no : Nat
  source_line : Str
  message : Str
deriving DecidableEq, Repr

/-- The mutable `(specfile.commands, specfile.errors)` pair threaded
through `parse_commands`. -/
structure ParseCommandsState where
  commands : List Command
  errors : List PError
deriving DecidableEq, Repr

/-- Abstraction of `include_file` (parser.py lines 205-240): given the
stripped include path, either the `(commands, errors)` of the recursively
parsed file, or `none` when the file exists in no include directory (the
caller then records an error). -/
def IncludeResolver := Str → Option (List Command × List PError)

/-- Python `str.strip()` (whitespace on both ends). -/
def py_strip (s : Str) : Str :=
  ((s.dropWhile Char.isWhitespace).reverse.dropWhile Char.isWhitespace).reverse

/-- One iteration of the `for line_no, line in enumerate(...)` loop of
`parse_commands` (parser.py lines 246-331): comments, blank prefix lines,
include directives, new commands, here-document continuation, and output
accumulation. -/
def parse_commands_step (incl : IncludeResolver) (path : Str)
    (st : ParseCommandsState) (ln : Nat × Str) : ParseCommandsState :=
  let line_no := ln.1
  let line := ln.2
  if line.head? = some '#' then st
  else if line.isEmpty ∧ st.commands.isEmpty then st
  else
    let lastHeredoc : Bool :=
      match st.commands.getLast? with
      | some lc => lc.has_heredoc
      | none => false
    if line.head? = some '<' ∧ lastHeredoc = false then
      match incl (py_strip (line.drop 1)) with
      | some inc =>
        { st with errors := st.errors ++ inc.2, commands := st.commands ++ inc.1 }
      | none =>
        -- the "error: ... does not exist in any directory: ..." message, with
        -- the directory list abstracted away
        { st with errors := st.errors ++
            [⟨path, line_no, line, ("error: include does not exist".toList)⟩] }
    else
      match reHeaderMatch line with
      | some (g, command) =>
        { st with commands := st.commands ++ [build_command path line_no line g command] }
      | none =>
        if st.commands.isEmpty then
          { st with errors := st.errors ++
              [⟨path, line_no, line,
                ("syntax error: output before first command, missing prefix?".toList)⟩] }
        else
          match st.commands.getLast? with
          | some lc =>
            if lc.has_heredoc ∧ endsWithStr lc.command ("\nHERE".toList) = false then
              { st with commands := st.commands.dropLast ++
                  [{ lc with command := lc.command ++ '\n' :: line }] }
            else
              { st with commands := st.commands.dropLast ++
                  [{ lc with expected := lc.expected ++ line ++ ['\n'] }] }
          | none => st

/-- Predicate for the characters stripped by `strip("\r\n")`. -/
def is_crlf (c : Char) : Bool := c == '\r' || c == '\n'

/-- Python `rstrip("\n")`. -/
def rstrip_newlines (s : Str) : Str := (s.reverse.dropWhile (fun c => c == '\n')).reverse

/-- Python `strip("\r\n")`. -/
def strip_crlf (s : Str) : Str :=
  ((s.dropWhile is_crlf).reverse.dropWhile is_crlf).reverse

/-- The final normalization loop of `parse_commands` (parser.py lines
333-338), acting on one command. -/
def strip_expected (c : Command) : Command :=
  match c.assert_mode with
  | AssertMode.REGEX => { c with expected := rstrip_newlines c.expected }
  | AssertMode.LITERAL => { c with expected := strip_crlf c.expected }
  | AssertMode.IGNORE => c

/-- The line-accumulation phase of `parse_commands` (the main `for` loop),
with line numbers starting at `command_offset_lines + 1` as in
`enumerate(commands.splitlines(), command_offset_lines + 1)`. -/
def parse_commands_accumulate (incl : IncludeResolver) (path : Str)
    (body : List Str) (command_offset_lines : Nat) : ParseCommandsState :=
  (body.enumFrom (command_offset_lines + 1)).foldl (parse_commands_step incl path) ⟨[], []⟩

/-- `parse_commands` (parser.py lines 243-338): the accumulation loop
followed by the per-assert-mode `expected` normalization loop. -/
def parse_commands (incl : IncludeResolver) (path : Str)
    (body : List Str) (command_offset_lines : Nat) : ParseCommandsState :=
  let st := parse_commands_accumulate incl path body command_offset_lines
  { st with commands := st.commands.map strip_expected }

/-! ## Configuration merging in `parse` (parser.py lines 361-440) -/

/-- A Python dict of strings, as an association list with unique keys. -/
abbrev EnvMap := List (Str × Str)

/-- Lookup in an association list (first match, like a Python dict). -/
def envLookup (d : EnvMap) (k : Str) : Option Str :=
  match d with
  | [] => none
  | p :: rest => if p.1 = k then some p.2 else envLookup rest k

/-- Python dict assignment `d[k] = v` on an association list: overwrite an
existing binding in place, otherwise append. -/
def dictSet (d : EnvMap) (k v : Str) : EnvMap :=
  if d.any (fun p => p.1 == k) then
    d.map (fun p => if p.1 = k then (k, v) else p)
  else d ++ [(k, v)]

/-- `class FixtureScope(Enum)` from parser.py. -/
inductive FixtureScope where
  | FILE
  | RUN
deriving DecidableEq, Repr

/-- The value of the `fixture` key in front-matter or project config: a
bare name or a `{name, scope}` mapping. -/
inductive FixtureVal where
  | bare (name : Str)
  | dict (name : Str) (scope : Option FixtureScope)
deriving DecidableEq, Repr

/-- The optional `settings:` block of a YAML document, flattened: an
absent block behaves exactly like an empty one because the source reads it
with `.get("settings", {})` and then looks keys up individually. -/
structure SettingsDoc where
  timeout_seconds : Option Int := none
  include_dirs : Option (List Str) := none
  fixture_dirs : Option (List Str) := none
  environment : Option EnvMap := none
deriving DecidableEq, Repr

/-- A parsed YAML document (spec front-matter or `shellinspector.yaml`),
restricted to the keys `parse` reads.  A key mapped to YAML `null` is
treated as absent, as in the source's `if value is not None` guard. -/
structure YamlDoc where
  examples : Option (List EnvMap) := none
  environment : Option EnvMap := none
  fixture : Option FixtureVal := none
  tags : Option (List Str) := none
  settingsD : SettingsDoc := {}
deriving DecidableEq, Repr

/-- `class Settings` from parser.py: `timeout_seconds=5`, empty dir
lists. -/
structure PSettings where
  timeout_seconds : Int := 5
  include_dirs : List Str := []
  fixture_dirs : List Str := []
deriving DecidableEq, Repr

/-- `try: value = frontmatter[key] except LookupError: value =
config.get(key, None); if value is not None: setattr(...)` (parser.py
lines 373-380), for one key with a constructor default. -/
def mergeKey {α : Type} (fm cfg : Option α) (dflt : α) : α :=
  ((fm).orElse (fun _ => cfg)).getD dflt

/-- The settings loop of `parse` (parser.py lines 390-414): front-matter
settings override project-config settings; the path-valued keys are
resolved against the supplying document's directory (`resolve root p`
models `(root_path / Path(p)).resolve()`) and the spec's own directory is
appended; `if not value: continue` keeps the built-in default 5 when the
timeout is absent or falsy (0). -/
def applySettings (resolve : Str → Str → Str) (specDir configDir : Str)
    (fmS cfgS : SettingsDoc) : PSettings :=
  let tVal := (fmS.timeout_seconds).orElse (fun _ => cfgS.timeout_seconds)
  let timeout_seconds : Int :=
    match tVal with
    | none => 5
    | some t => if t = 0 then 5 else t
  let incRoot := if (fmS.include_dirs).isSome then specDir else configDir
  let include_dirs :=
    (((fmS.include_dirs).orElse (fun _ => cfgS.include_dirs)).getD []).map
      (resolve incRoot) ++ [specDir]
  let fixRoot := if (fmS.fixture_dirs).isSome then specDir else configDir
  let fixture_dirs :=
    (((fmS.fixture_dirs).orElse (fun _ => cfgS.fixture_dirs)).getD []).map
      (resolve fixRoot) ++ [specDir]
  ⟨timeout_seconds, include_dirs, fixture_dirs⟩

/-- Left brace character (written by code point to keep it out of string
literals). -/
def braceL : Char := Char.ofNat 123

/-- Right brace character. -/
def braceR : Char := Char.ofNat 125

/-- Python `str.replace(pat, rep)` replacing every occurrence left to
right.  The degenerate empty pattern never occurs in the source (`$NAME`
is never empty) and is mapped to the identity. -/
def replace_all (s pat rep : Str) : Str :=
  match pat with
  | [] => s
  | p :: ps =>
    match s with
    | [] => []
    | c :: stl =>
      if (p :: ps).isPrefixOf (c :: stl) then
        rep ++ replace_all ((c :: stl).drop (p :: ps).length) (p :: ps) rep
      else c :: replace_all stl (p :: ps) rep
termination_by s.length
decreasing_by
  · simp [List.length_drop]
    omega
  · simp

/-- The `$NAME` / `${NAME}` host-environment expansion applied to one
environment value (parser.py lines 432-440). -/
def interpolate_env_value (osEnv : EnvMap) (sv : Str) : Str :=
  osEnv.foldl (fun acc p =>
    replace_all (replace_all acc ('$' :: p.1) p.2)
      ('$' :: braceL :: (p.1 ++ [braceR])) p.2) sv

/-- The configuration-dependent fields of a `Specfile` produced by `parse`
(everything `parse` assigns before/around `parse_commands`). -/
structure MergedConfig where
  examples : List EnvMap
  environment : EnvMap
  fixture : Option Str
  fixture_scope : FixtureScope
  tags : List Str
  settings : PSettings
deriving DecidableEq, Repr

/-- The configuration-merging portion of `parse` (parser.py lines
361-440): top-level keys with front-matter precedence, fixture name/scope
extraction, the settings loop, the per-key environment merge over the
project config's environment keys (which reads the front-matter override
from `frontmatter_settings`, i.e. the `settings:` block), and the host
environment interpolation. -/
def parse_apply_config (fm cfg : YamlDoc) (osEnv : EnvMap)
    (resolve : Str → Str → Str) (specDir configDir : Str) : MergedConfig :=
  let examples := mergeKey fm.examples cfg.examples []
  let envTop := mergeKey fm.environment cfg.environment []
  let tags := mergeKey fm.tags cfg.tags []
  let fx := (fm.fixture).orElse (fun _ => cfg.fixture)
  let fixture_scope :=
    match fx with
    | some (FixtureVal.dict _ (some sc)) => sc
    | _ => FixtureScope.FILE
  let fixture :=
    match fx with
    | none => none
    | some (FixtureVal.bare n) => some n
    | some (FixtureVal.dict n _) => some n
  let settings := applySettings resolve specDir configDir fm.settingsD cfg.settingsD
  let globalEnv := (cfg.environment).getD []
  let fmSettingsEnv := (fm.settingsD.environment).getD []
  let env1 := globalEnv.foldl (fun acc kv =>
    let v :=
      match envLookup fmSettingsEnv kv.1 with
      | some v2 => v2
      | none => kv.2
    dictSet acc kv.1 v) envTop
  let environment := env1.map (fun kv => (kv.1, interpolate_env_value osEnv kv.2))
  ⟨examples, environment, fixture, fixture_scope, tags, settings⟩

/-! ## `str.format` and `Specfile.copy` / `Specfile.as_example` -/

/-- Python `str.format(**example)` for plain placeholder fields, with
explicit recursion fuel (every call consumes at least one character, so
the `length + 1` supplied by `pyFormat` below makes the fuel-exhausted
branch unreachable).  In plain mode (`mode = none`): doubled braces are
escapes, an opening brace switches to field mode, an unmatched single
closing brace is an error (`ValueError`, modelled as `none`).  In field
mode (`mode = some nameAcc`): accumulate the field name up to the closing
brace and substitute the example's value for it (a missing key is the
`KeyError`, also `none`).  Conversion/format-spec suffixes inside a field
are not separated out: the whole text up to the closing brace is the key,
which is faithful for the plain placeholder names spec files use. -/
def pyFormatFuel (e : EnvMap) : Nat → Option Str → Str → Option Str
  | 0, _, _ => none
  | Nat.succ _, none, [] => some []
  | Nat.succ n, none, c :: rest =>
    if c = braceL then
      match rest with
      | [] => none
      | c2 :: rest2 =>
        if c2 = braceL then
          (pyFormatFuel e n none rest2).map (fun t => braceL :: t)
        else pyFormatFuel e n (some []) (c2 :: rest2)
    else if c = braceR then
      match rest with
      | [] => none
      | c2 :: rest2 =>
        if c2 = braceR then (pyFormatFuel e n none rest2).map (fun t => braceR :: t)
        else none
    else (pyFormatFuel e n none rest).map (fun t => c :: t)
  | Nat.succ _, some _, [] => none
  | Nat.succ n, some nameAcc, c :: rest =>
    if c = braceR then
      match envLookup e nameAcc.reverse with
      | some v => (pyFormatFuel e n none rest).map (fun t => v ++ t)
      | none => none
    else pyFormatFuel e n (some (c :: nameAcc)) rest

/-- Python `str.format(**example)`: `pyFormatFuel` with adequate fuel. -/
def pyFormat (e : EnvMap) (s : Str) : Option Str :=
  pyFormatFuel e (s.length + 1) none s

/-- A string free of braces, which `format` maps to itself. -/
def no_braces (s : Str) : Bool := s.all (fun c => !(c = braceL) && !(c = braceR))

/-- The per-command loop body of `Specfile.as_example` (parser.py lines
143-146): format `command`, `line` and `expected` against the example
mapping.  Python applies the three assignments in order and a `KeyError`
leaves earlier assignments in place on the (fresh) copy; the all-or-none
`Option` here only coarsens the failure case, which no claim depends
on. -/
def format_command (e : EnvMap) (c : Command) : Option Command :=
  match pyFormat e c.command, pyFormat e c.line, pyFormat e c.expected with
  | some cm, some ln, some ex =>
    some { c with command := cm, line := ln, expected := ex }
  | _, _, _ => none

mutual

/-- `@dataclasses.dataclass class Specfile` from parser.py, as an
inductive so that the fixture spec-file fields can nest (pairing with
`OptSpecfile`, a specialised `Option`, keeps the type non-nested so that
recursion over it computes).  `tags` is declared on the dataclass but
never assigned in `__init__`; it is modelled with the empty list the
attribute effectively has until `parse` sets it. -/
inductive PSpecfile where
  | mk
    (path : Str)
    (commands : List Command)
    (errors : List PError)
    (environment : EnvMap)
    (examples : List EnvMap)
    (fixture : Option Str)
    (fixture_scope : FixtureScope)
    (fixture_specfile_pre : OptSpecfile)
    (fixture_specfile_post : OptSpecfile)
    (applied_example : Option EnvMap)
    (tags : List Str)
    (settings : PSettings)
    (is_fixture : Bool)

/-- `Optional[Specfile]`: the possibly-absent fixture spec-file. -/
inductive OptSpecfile where
  | none
  | some (s : PSpecfile)

end

/-- Field accessor: `specfile.commands`. -/
def PSpecfile.commandsOf : PSpecfile → List Command
  | .mk _ c _ _ _ _ _ _ _ _ _ _ _ => c

/-- Field accessor: `specfile.fixture_specfile_pre`. -/
def PSpecfile.fixturePreOf : PSpecfile → OptSpecfile
  | .mk _ _ _ _ _ _ _ pre _ _ _ _ _ => pre

/-- Field accessor: `specfile.fixture_specfile_post`. -/
def PSpecfile.fixturePostOf : PSpecfile → OptSpecfile
  | .mk _ _ _ _ _ _ _ _ post _ _ _ _ => post

/-- Field accessor: `specfile.applied_example`. -/
def PSpecfile.appliedExampleOf : PSpecfile → Option EnvMap
  | .mk _ _ _ _ _ _ _ _ _ ap _ _ _ => ap

/-- Field accessor: `specfile.environment`. -/
def PSpecfile.environmentOf : PSpecfile → EnvMap
  | .mk _ _ _ env _ _ _ _ _ _ _ _ _ => env

/-- Field accessor: `specfile.path`. -/
def PSpecfile.pathOf : PSpecfile → Str
  | .mk p _ _ _ _ _ _ _ _ _ _ _ _ => p

/-- `Specfile.copy` (parser.py lines 129-137): a fresh `Specfile` built
from `path`, value-copied `commands`/`errors`/`environment`/`examples`
and `is_fixture`; every other attribute takes the `__init__` default, so
`fixture`, `fixture_scope`, `fixture_specfile_pre`, `fixture_specfile_post`,
`applied_example` and `settings` are reset. -/
def PSpecfile.copy : PSpecfile → PSpecfile
  | .mk p cs es env exs _ _ _ _ _ _ _ isf =>
    .mk p cs es env exs none FixtureScope.FILE OptSpecfile.none OptSpecfile.none
      none [] {} isf

/-- `Specfile.as_example` (parser.py lines 139-148): copy, set
`applied_example`, and format every command's `command`/`line`/`expected`
against the example mapping. -/
def PSpecfile.as_example (s : PSpecfile) (ex : EnvMap) : Option PSpecfile :=
  match s.copy with
  | .mk p cs es env exs fx sc pre post _ tg st isf =>
    match cs.mapM (format_command ex) with
    | some cs2 => some (.mk p cs2 es env exs fx sc pre post (some ex) tg st isf)
    | none => none

/-! ## Object-identity model for `copy`/`as_example` mutation (claim C6):
commands live in a heap of cells, `dataclasses.replace` allocates fresh
cells, and `as_example` mutates only the fresh cells. -/

/-- All `Command` objects ever allocated; a reference is an index. -/
structure CmdHeap where
  cells : List Command
deriving DecidableEq, Repr

/-- Dereference a command object. -/
def heapGet (h : CmdHeap) (i : Nat) : Command := h.cells.getD i default

/-- The `[dataclasses.replace(c) for c in self.commands]` of
`Specfile.copy`: allocate one fresh cell per referenced command, holding
the same field values. -/
def allocCopies (h : CmdHeap) (refs : List Nat) : CmdHeap × List Nat :=
  (⟨h.cells ++ refs.map (heapGet h)⟩, List.range' h.cells.length refs.length)

/-- The `for cmd in copy.commands:` mutation loop of `as_example`,
formatting each referenced cell in place. -/
def mutateAll (e : EnvMap) : List Nat → CmdHeap → Option CmdHeap
  | [], h => some h
  | i :: is, h =>
    match format_command e (heapGet h i) with
    | some c => mutateAll e is ⟨h.cells.set i c⟩
    | none => none

/-- `Specfile.as_example` at the object level: allocate copies of the
original command objects, then mutate only the copies. -/
def as_example_heap (h : CmdHeap) (refs : List Nat) (e : EnvMap) :
    Option (CmdHeap × List Nat) :=
  let h1 := (allocCopies h refs).1
  let newRefs := (allocCopies h refs).2
  match mutateAll e newRefs h1 with
  | some h2 => some (h2, newRefs)
  | none => none

/-- Brace-freedom of the three formatted fields of a command. -/
def no_braces_command (c : Command) : Bool :=
  no_braces c.command && no_braces c.line && no_braces c.expected

/-! ## The runner (`ShellRunner.run` and helpers, runner.py lines 234-487).
Shell/Python side effects are abstracted by a tick-indexed oracle; the
session pool, the closed-session set, the reported events and the
`push_state`/`pop_state` calls are tracked explicitly. -/

/-- Association-list lookup with decidable keys (a Python dict read). -/
def assocLookup {α β : Type} [DecidableEq α] (d : List (α × β)) (k : α) : Option β :=
  match d with
  | [] => none
  | p :: rest => if p.1 = k then some p.2 else assocLookup rest k

/-- Python `del d[k]` on an association list with unique keys. -/
def assocErase {α β : Type} [DecidableEq α] (d : List (α × β)) (k : α) : List (α × β) :=
  d.filter (fun p => !(p.1 == k))

/-- The `(server, port)` part of the `ssh_config` dict built by the CLI. -/
structure SshConfig where
  server : Str
  port : Int
deriving DecidableEq, Repr

/-- A key of the session pool as computed by `_get_session_key`
(runner.py lines 241-256): `("local", session_name)` for local commands,
`(server, port, user, session_name)` for remote ones. -/
inductive SessKey where
  | localKey (session_name : Option Str)
  | remoteKey (server : Str) (port : Int) (user : Option Str) (session_name : Option Str)
deriving DecidableEq, Repr

/-- Events reported to the reporters (`RunnerEvent` plus each call's
keyword payload).  The python branch reports `COMMAND_PASSED` without
`returncode`/`actual`, hence the `Option`s. -/
inductive REvent where
  | COMMAND_STARTING (cmd : Command)
  | COMMAND_PASSED (returncode : Option Int) (actual : Option Str)
  | COMMAND_FAILED (reasons : Finset Str) (returncode : Int) (actual : Str)
  | COMMAND_FAILED_PY (message : Str)
  | RUN_FAILED
  | RUN_SUCCEEDED
  | ERROR (message : Str) (actual : Str)
deriving DecidableEq

/-- Uncaught Python exceptions that can escape `ShellRunner.run`. -/
inductive RunErr where
  | keyError
  | sessionCloseMissing
  | unknownHost
  | valueError
  | timeoutInPython
deriving DecidableEq, Repr

/-- One shell round trip as seen by `RemoteShell.run_command`: either the
output before the next prompt, or a prompt timeout with the partial
output collected so far. -/
inductive ShellResp where
  | ok (out : Str)
  | promptTimeout (sofar : Str)
deriving DecidableEq, Repr

/-- The `is True` test on `run_in_file`'s result: exactly `True`, or
anything else whose `str(...)` is the message. -/
inductive PyRes where
  | isTrue
  | notTrue (message : Str)
deriving DecidableEq, Repr

/-- The environment's responses, indexed by a global call counter: what
each successive `run_command` round trip yields, what each `run_in_file`
call returns, and how `re.search` behaves. -/
structure Oracle where
  shell : Nat → ShellResp
  py : Nat → PyRes
  regexSearch : Str → Str → Bool

/-- The mutable state of one `ShellRunner` plus the session-shell
bookkeeping: the pool (`self.sessions`), which sessions have been closed,
the id for the next spawned session, the oracle call counter, the
reported events, and every `push_state` / `pop_state` call. -/
structure RunState where
  sessions : List (SessKey × Nat)
  closedSessions : List Nat
  nextSession : Nat
  tick : Nat
  events : List REvent
  pushed : List Nat
  popped : List Nat
deriving DecidableEq

/-- Append one reported event. -/
def addEvent (st : RunState) (e : REvent) : RunState :=
  { st with events := st.events ++ [e] }

namespace ShellRunner

/-- `_get_session_key` (runner.py lines 241-256); an unknown host raises
`NotImplementedError`. -/
def get_session_key (cfg : SshConfig) (cmd : Command) : Except RunErr SessKey :=
  if cmd.host = "local".toList then
    Except.ok (SessKey.localKey cmd.session_name)
  else if cmd.host = "remote".toList then
    Except.ok (SessKey.remoteKey cfg.server cfg.port cmd.user cmd.session_name)
  else Except.error RunErr.unknownHost

/-- `_close_session` (runner.py lines 258-268): close the pooled session
and delete it from the pool, or raise when there is none. -/
def close_session (cfg : SshConfig) (cmd : Command) (st : RunState) :
    Except RunErr RunState := do
  let key ← get_session_key cfg cmd
  match assocLookup st.sessions key with
  | some s =>
    Except.ok { st with
      closedSessions := st.closedSessions ++ [s],
      sessions := assocErase st.sessions key }
  | none => Except.error RunErr.sessionCloseMissing

/-- `_make_session` (runner.py lines 270-289): spawn a fresh shell (local
or SSH — indistinguishable in the model) and store it in the pool. -/
def make_session (key : SessKey) (st : RunState) : Nat × RunState :=
  (st.nextSession,
   { st with
      sessions := st.sessions ++ [(key, st.nextSession)],
      nextSession := st.nextSession + 1 })

/-- `_get_session` (runner.py lines 291-326): connect when absent,
destroy and reconnect when the pooled session is closed, reuse
otherwise. -/
def get_session (cfg : SshConfig) (cmd : Command) (st : RunState) :
    Except RunErr (Nat × RunState) := do
  let key ← get_session_key cfg cmd
  match assocLookup st.sessions key with
  | none => Except.ok (make_session key st)
  | some s =>
    if st.closedSessions.contains s then
      let st1 := { st with
        sessions := assocErase st.sessions key,
        closedSessions := st.closedSessions ++ [s] }
      Except.ok (make_session key st1)
    else Except.ok (s, st)

/-- `RemoteShell.run_command` (runner.py lines 92-102): one oracle round
trip; on a prompt timeout the shell is closed and the partial output is
carried by the raised `TimeoutException` (the `Except.error` case). -/
def session_run_command (O : Oracle) (s : Nat) (st : RunState) :
    Except Str Str × RunState :=
  let resp := O.shell st.tick
  let st1 := { st with tick := st.tick + 1 }
  match resp with
  | ShellResp.ok out => (Except.ok out, st1)
  | ShellResp.promptTimeout sofar =>
    (Except.error sofar, { st1 with closedSessions := st1.closedSessions ++ [s] })

/-- Digits-to-number helper for `int(...)`. -/
def digitsToNat (ds : Str) : Nat :=
  ds.foldl (fun a c => a * 10 + (c.toNat - ('0').toNat)) 0

/-- Python `int(str)`: optional surrounding whitespace, optional sign,
then at least one digit; anything else raises `ValueError` (`none`). -/
def pyInt (s : Str) : Option Int :=
  let t := py_strip s
  match t with
  | '-' :: ds =>
    if ds ≠ [] ∧ ds.all Char.isDigit then some (-(digitsToNat ds : Int)) else none
  | '+' :: ds =>
    if ds ≠ [] ∧ ds.all Char.isDigit then some ((digitsToNat ds : Int)) else none
  | ds =>
    if ds ≠ [] ∧ ds.all Char.isDigit then some ((digitsToNat ds : Int)) else none

/-- `_run_command` (runner.py lines 376-405): run the command, run
`echo $?`, convert the returncode (a `ValueError` escapes), check the
result and report the corresponding event.  Timeouts report `ERROR` and
make the command count as failed. -/
def run_command_step (O : Oracle) (s : Nat) (cmd : Command) (st : RunState) :
    Except RunErr Bool × RunState :=
  match session_run_command O s st with
  | (Except.error sofar, st1) =>
    (Except.ok false,
     addEvent st1 (REvent.ERROR ("timeout, could not find prompt for command".toList) sofar))
  | (Except.ok command_output, st1) =>
    match session_run_command O s st1 with
    | (Except.error sofar, st2) =>
      (Except.ok false,
       addEvent st2 (REvent.ERROR ("timeout, could not find prompt for return code".toList) sofar))
    | (Except.ok rc_output, st2) =>
      match pyInt rc_output with
      | none => (Except.error RunErr.valueError, st2)
      | some rc =>
        match check_result O.regexSearch cmd command_output rc with
        | CheckVerdict.passed r a =>
          (Except.ok true, addEvent st2 (REvent.COMMAND_PASSED (some r) (some a)))
        | CheckVerdict.failed rs r a =>
          (Except.ok false, addEvent st2 (REvent.COMMAND_FAILED rs r a))

/-- Control signal produced by one command iteration of `run`'s loop. -/
inductive StepSig where
  | next
  | failStop
  | crash (e : RunErr)
deriving DecidableEq, Repr

/-- One iteration of the `for cmd in specfile.commands` loop of `run`
(runner.py lines 417-474), except that on failure the post-fixture run
(shared with the fall-through path) is left to the caller:
report `COMMAND_STARTING`; get or create the session; for a PYTHON
command consult `run_in_file` (its `get_environment` snapshot is a shell
round trip whose timeout escapes as an exception; `set_environment` on
success is a session no-op in the model); for the literal `logout`
command close the session, discard it from the used set (a `KeyError`
when it was never used) and pass; otherwise mark the session used
(environment setup plus `push_state`) on first touch and run the
command. -/
def run_step (O : Oracle) (cfg : SshConfig) (context : EnvMap)
    (cmd : Command) (st0 : RunState) (used : List Nat) :
    StepSig × RunState × List Nat :=
  let st := addEvent st0 (REvent.COMMAND_STARTING cmd)
  match get_session cfg cmd st with
  | Except.error e => (StepSig.crash e, st, used)
  | Except.ok (s, st) =>
    match cmd.execution_mode with
    | ExecutionMode.PYTHON =>
      match session_run_command O s st with
      | (Except.error _, st) => (StepSig.crash RunErr.timeoutInPython, st, used)
      | (Except.ok _, st) =>
        let res := O.py st.tick
        let st := { st with tick := st.tick + 1 }
        match res with
        | PyRes.isTrue =>
          (StepSig.next, addEvent st (REvent.COMMAND_PASSED none none), used)
        | PyRes.notTrue msg =>
          (StepSig.failStop,
           addEvent (addEvent st (REvent.COMMAND_FAILED_PY msg)) REvent.RUN_FAILED,
           used)
    | _ =>
      if cmd.command = "logout".toList then
        match close_session cfg cmd st with
        | Except.error e => (StepSig.crash e, st, used)
        | Except.ok st =>
          if used.contains s then
            (StepSig.next, addEvent st (REvent.COMMAND_PASSED (some 0) (some [])), used.erase s)
          else
            (StepSig.crash RunErr.keyError, st, used)
      else
        let stUsed :=
          if used.contains s then (st, used)
          else ({ st with pushed := st.pushed ++ [s] }, used ++ [s])
        match run_command_step O s cmd stUsed.1 with
        | (Except.error e, st) => (StepSig.crash e, st, stUsed.2)
        | (Except.ok true, st) => (StepSig.next, st, stUsed.2)
        | (Except.ok false, st) =>
          (StepSig.failStop, addEvent st REvent.RUN_FAILED, stUsed.2)

/-- The command loop of `run`: iterate `run_step` until the list is done
(`ok true`), a command fails (`ok false`, after `RUN_FAILED` was
reported) or an exception escapes. -/
def run_loop (O : Oracle) (cfg : SshConfig) (context : EnvMap) :
    List Command → RunState → List Nat → Except RunErr Bool × RunState × List Nat
  | [], st, used => (Except.ok true, st, used)
  | cmd :: rest, st, used =>
    match run_step O cfg context cmd st used with
    | (StepSig.next, st, used) => run_loop O cfg context rest st used
    | (StepSig.failStop, st, used) => (Except.ok false, st, used)
    | (StepSig.crash e, st, used) => (Except.error e, st, used)

/-- The Python truthiness of the `outer_used_sessions` argument: `None`
and the empty set are falsy. -/
def pythonTruthy (outer : Option (List Nat)) : Bool :=
  match outer with
  | none => false
  | some l => !l.isEmpty

/-- Result of `ShellRunner.run`: the returned bool or the escaped
exception, the final runner state, and the final contents of the
`used_sessions` set. -/
structure RunRes where
  result : Except RunErr Bool
  state : RunState
  used : List Nat

/-- The binding `used_sessions = outer_used_sessions or set()` of `run`
(runner.py lines 408-411): alias the caller's set only when it is truthy
(non-empty), otherwise start fresh. -/
def runUsed0 (outer : Option (List Nat)) : List Nat :=
  match outer with
  | some l => if l.isEmpty then [] else l
  | none => []

/-- Merging a pre-fixture run into the caller (runner.py lines 414-415):
the recursive call's return value is discarded, escaped exceptions
propagate, and the caller's used set is the callee's final one exactly
when the caller's set was aliased (non-empty when passed). -/
def runPreStage (rr : Option RunRes) (st0 : RunState) (used0 : List Nat) :
    Except RunErr Unit × RunState × List Nat :=
  match rr with
  | some r =>
    let usedAfter := if used0.isEmpty then used0 else r.used
    (match r.result with
     | Except.error e => (Except.error e, r.state, usedAfter)
     | Except.ok _ => (Except.ok (), r.state, usedAfter))
  | none => (Except.ok (), st0, used0)

/-- Merging the post-fixture run (runner.py lines 447-448, 471-472,
476-477; shared by the failure stop and the fall-through): the result is
discarded, exceptions propagate, aliasing as in `runPreStage`. -/
def runPostStage (rr : Option RunRes) (b : Bool) (st : RunState) (used : List Nat) :
    Except RunErr Bool × RunState × List Nat :=
  match rr with
  | some r =>
    let usedAfter := if used.isEmpty then used else r.used
    (match r.result with
     | Except.error e => (Except.error e, r.state, usedAfter)
     | Except.ok _ => (Except.ok b, r.state, usedAfter))
  | none => (Except.ok b, st, used)

/-- The `finally` block and the function exit of `run` (runner.py lines
479-486): `pop_state` on every used session, but only when
`outer_used_sessions is None`; `RUN_SUCCEEDED` only on the fall-through
(`True`) path. -/
def runFinalize (outer : Option (List Nat))
    (body : Except RunErr Bool × RunState × List Nat) : RunRes :=
  let st1 := body.2.1
  let used1 := body.2.2
  let st2 :=
    if outer.isNone then { st1 with popped := st1.popped ++ used1 } else st1
  match body.1 with
  | Except.error e => ⟨Except.error e, st2, used1⟩
  | Except.ok b =>
    if b then ⟨Except.ok true, addEvent st2 REvent.RUN_SUCCEEDED, used1⟩
    else ⟨Except.ok false, st2, used1⟩

/-- The fixture-nesting depth of a spec file: enough recursion fuel for
`run` to process every attached fixture spec-file. -/
def fixDepth : PSpecfile → Nat
  | PSpecfile.mk _ _ _ _ _ _ _ pre post _ _ _ _ =>
    1 + Nat.max
      (match pre with
       | OptSpecfile.some p => fixDepth p
       | OptSpecfile.none => 0)
      (match post with
       | OptSpecfile.some q => fixDepth q
       | OptSpecfile.none => 0)

/-- `ShellRunner.run` (runner.py lines 407-486), with explicit recursion
fuel (a modelling device: `run` below always supplies at least the
fixture-nesting depth, so the fuel-exhausted branch is unreachable):
alias the caller's used-session set only when it is truthy, otherwise
start a fresh one; run the pre-fixture (result ignored), the command
loop, and the post-fixture (after both the failure stop and the
fall-through, result ignored); in the `finally`, call `pop_state` on
every used session — but only when `outer_used_sessions is None`; report
`RUN_SUCCEEDED` only on the fall-through path.  Recursive fixture runs
receive the current set, so they alias it exactly when it is non-empty at
that moment. -/
def runFuel (O : Oracle) (cfg : SshConfig) (context : EnvMap) :
    Nat → PSpecfile → Option (List Nat) → RunState → RunRes
  | 0, _, outer, st0 => ⟨Except.ok true, st0, runUsed0 outer⟩
  | Nat.succ n, PSpecfile.mk _ cmds _ _ _ _ _ pre post _ _ _ _, outer, st0 =>
    let used0 := runUsed0 outer
    runFinalize outer
      (match runPreStage
          (match pre with
           | OptSpecfile.some p => some (runFuel O cfg context n p (some used0) st0)
           | OptSpecfile.none => none) st0 used0 with
       | (Except.error e, st, used) => (Except.error e, st, used)
       | (Except.ok _, st, used) =>
         match run_loop O cfg context cmds st used with
         | (Except.error e, st, used) => (Except.error e, st, used)
         | (Except.ok b, st, used) =>
           runPostStage
             (match post with
              | OptSpecfile.some q => some (runFuel O cfg context n q (some used) st)
              | OptSpecfile.none => none) b st used)

/-- `ShellRunner.run` on a spec file: `runFuel` with adequate fuel. -/
def run (O : Oracle) (cfg : SshConfig) (context : EnvMap)
    (sf : PSpecfile) (outer : Option (List Nat)) (st0 : RunState) : RunRes :=
  runFuel O cfg context (fixDepth sf) sf outer st0

/-- The caller's view of its own set after `run(specfile, outer)`
returns: the callee mutated it only if it aliased it (Python rebinds the local
name to a fresh set otherwise). -/
def callerSetAfter (outer : Option (List Nat)) (r : RunRes) : Option (List Nat) :=
  if pythonTruthy outer then some r.used else outer

end ShellRunner

/-! ## Concrete instances used by the evaluation theorems -/

/-- The all-zero initial runner state (a fresh `ShellRunner`). -/
def runnerState0 : RunState := ⟨[], [], 0, 0, [], [], []⟩

/-- A concrete ssh config. -/
def sshCfg0 : SshConfig := ⟨"srv".toList, 22⟩

/-- A concrete oracle: every shell round trip yields output `out`, except
that every second one (the `echo $?` calls of these runs) yields `0`;
python calls return `True`; the regex never matches. -/
def oracle0 : Oracle :=
  ⟨fun t => ShellResp.ok (if t % 2 = 1 then "0".toList else "out".toList),
   fun _ => PyRes.isTrue,
   fun _ _ => false⟩

/-- A fixture command (`% echo pre`, output ignored). -/
def fixtureCmd : Command :=
  ⟨ExecutionMode.ROOT, "echo pre".toList, some ("root".toList), none,
    "remote".toList, AssertMode.IGNORE, [], "fx_pre.ispec".toList, 1,
    "%_ echo pre".toList, false⟩

/-- A main-file command (`% echo a`, output ignored). -/
def mainCmd : Command :=
  ⟨ExecutionMode.ROOT, "echo a".toList, some ("root".toList), none,
    "remote".toList, AssertMode.IGNORE, [], "some.ispec".toList, 1,
    "%_ echo a".toList, false⟩

/-- A pre-fixture spec file holding `fixtureCmd`. -/
def c3FixturePre : PSpecfile :=
  .mk ("fx_pre.ispec".toList) [fixtureCmd] [] [] [] none FixtureScope.FILE
    OptSpecfile.none OptSpecfile.none none [] {} true

/-- A post-fixture spec file holding `fixtureCmd`. -/
def c3FixturePost : PSpecfile :=
  .mk ("fx_post.ispec".toList) [fixtureCmd] [] [] [] none FixtureScope.FILE
    OptSpecfile.none OptSpecfile.none none [] {} true

/-- The example mapping applied in the C3 evaluation. -/
def c3Example : EnvMap := [(("X".toList), ("1".toList))]

/-- A spec file with both FILE-scoped fixture spec-files attached and one
example. -/
def c3Spec : PSpecfile :=
  .mk ("some.ispec".toList) [mainCmd] [] [] [c3Example]
    (some ("fx".toList)) FixtureScope.FILE
    (OptSpecfile.some c3FixturePre) (OptSpecfile.some c3FixturePost) none [] {} false

/-- What `c3Spec.as_example c3Example` actually produces: the same
commands with `applied_example` set, but with `fixture`,
`fixture_specfile_pre`, `fixture_specfile_post` and `settings` reset to
the constructor defaults. -/
def c3Copy : PSpecfile :=
  .mk ("some.ispec".toList) [mainCmd] [] [] [c3Example]
    none FixtureScope.FILE OptSpecfile.none OptSpecfile.none (some c3Example) [] {} false

/-- A literal `logout` command on the remote root session. -/
def logoutCmd : Command :=
  ⟨ExecutionMode.ROOT, "logout".toList, some ("root".toList), none,
    "remote".toList, AssertMode.LITERAL, [], "x.ispec".toList, 1,
    "% logout".toList, false⟩

/-- A spec file whose first (and only) command is the literal `logout`. -/
def c5Spec : PSpecfile :=
  .mk ("x.ispec".toList) [logoutCmd] [] [] [] none FixtureScope.FILE
    OptSpecfile.none OptSpecfile.none none [] {} false

/-- The pool key of `logoutCmd` under `sshCfg0`. -/
def logoutKey : SessKey :=
  SessKey.remoteKey ("srv".toList) 22 (some ("root".toList)) none

/-! ## Theorems -/

/-- Claim C1: `_check_result` reports `COMMAND_PASSED` iff the output
matches under the command's assert mode and the returncode is 0; otherwise
it reports `COMMAND_FAILED` whose `reasons` set contains `"returncode"`
iff `returncode ≠ 0`, contains `"output"` iff the output did not match,
and contains nothing else. -/
theorem c1_check_result_verdict (regexSearch : Str → Str → Bool)
    (cmd : Command) (out : Str) (rc : Int) :
    (ShellRunner.check_result regexSearch cmd out rc =
        ShellRunner.CheckVerdict.passed rc out ↔
      (ShellRunner.output_matches regexSearch cmd out = true ∧ rc = 0)) ∧
    (∀ rs rc2 out2,
      ShellRunner.check_result regexSearch cmd out rc =
          ShellRunner.CheckVerdict.failed rs rc2 out2 →
        (("returncode".toList ∈ rs ↔ rc ≠ 0) ∧
         ("output".toList ∈ rs ↔
            ShellRunner.output_matches regexSearch cmd out = false) ∧
         (∀ r ∈ rs, r = "output".toList ∨ r = "returncode".toList))) := by
  unfold ShellRunner.check_result
  set m := ShellRunner.output_matches regexSearch cmd out with hm
  by_cases hcond : (m = true ∧ rc = 0)
  · rw [if_pos hcond]
    refine ⟨by simp [hcond], ?_⟩
    intro rs rc2 out2 h
    exact absurd h (by simp)
  · rw [if_neg hcond]
    constructor
    · constructor
      · intro h
        exact absurd h (by simp)
      · intro h
        exact absurd h hcond
    · intro rs rc2 out2 h
      have hrs : rs = (if m = false then
          insert ("output".toList)
            (if rc ≠ 0 then ({("returncode".toList)} : Finset Str) else ∅)
          else (if rc ≠ 0 then ({("returncode".toList)} : Finset Str) else ∅)) := by
        injection h with h1 h2 h3
        exact h1.symm
      have hout_ne : ("output".toList : Str) ≠ "returncode".toList := by decide
      subst hrs
      by_cases hm2 : m = false <;> by_cases hrc : rc = 0 <;>
        simp [hm2, hrc, Finset.mem_insert, hout_ne, hout_ne.symm] at *

/-- Closed witness for `c1_check_result_verdict`, instantiating it on a
literal-mode command whose output matches but whose returncode is 1. -/
theorem c1_check_result_verdict_wit :
    ("returncode".toList ∈ ({("returncode".toList)} : Finset Str) ↔ (1 : Int) ≠ 0) := by
  have h := c1_check_result_verdict (fun _ _ => false)
    ⟨ExecutionMode.USER, "true".toList, none, none, "local".toList,
      AssertMode.LITERAL, "x".toList, [], 1, [], false⟩ ("x".toList) 1
  exact ((h.2 {("returncode".toList)} 1 ("x".toList)) (by decide)).1

/-! ## Helper lemmas about `dropWhile`-based stripping -/

theorem head?_dropWhile_false {α : Type} (p : α → Bool) (l : List α) (a : α)
    (h : (l.dropWhile p).head? = some a) : p a = false := by
  induction l with
  | nil => simp [List.dropWhile] at h
  | cons hd tl ih =>
    rw [List.dropWhile] at h
    cases hp : p hd with
    | true =>
      rw [hp] at h
      exact ih h
    | false =>
      rw [hp] at h
      simp at h
      subst h
      exact hp

theorem head?_append_of_some {α : Type} {l t : List α} {a : α}
    (h : l.head? = some a) : (l ++ t).head? = some a := by
  cases l with
  | nil => simp at h
  | cons hd tl => simpa using h

theorem head?_strip_crlf (s : Str) (ch : Char)
    (h : (strip_crlf s).head? = some ch) : is_crlf ch = false := by
  unfold strip_crlf at h
  set d := s.dropWhile is_crlf with hd
  have hsplit : d.reverse.takeWhile is_crlf ++ d.reverse.dropWhile is_crlf = d.reverse :=
    List.takeWhile_append_dropWhile is_crlf d.reverse
  have hdec : d = (d.reverse.dropWhile is_crlf).reverse ++ (d.reverse.takeWhile is_crlf).reverse := by
    have := congrArg List.reverse hsplit
    rw [List.reverse_append] at this
    simpa using this.symm
  have hh : d.head? = some ch := by
    rw [hdec]
    exact head?_append_of_some h
  exact head?_dropWhile_false is_crlf s ch hh

theorem getLast?_strip_crlf (s : Str) (ch : Char)
    (h : (strip_crlf s).getLast? = some ch) : is_crlf ch = false := by
  unfold strip_crlf at h
  rw [List.getLast?_reverse] at h
  exact head?_dropWhile_false is_crlf _ ch h

theorem getLast?_rstrip_newlines (s : Str) (ch : Char)
    (h : (rstrip_newlines s).getLast? = some ch) : ch ≠ '\n' := by
  unfold rstrip_newlines at h
  rw [List.getLast?_reverse] at h
  have := head?_dropWhile_false (fun c => c == '\n') _ ch h
  simpa using this

/-! ## Soundness of the header matcher: the remainder really is everything
after the single mandatory space -/

theorem exists_glyphs_two (c a : Char) (r : Str) :
    ∃ glyphs, c :: a :: ' ' :: r = glyphs ++ ' ' :: r := ⟨[c, a], rfl⟩

theorem exists_glyphs_one (c : Char) (r : Str) :
    ∃ glyphs, c :: ' ' :: r = glyphs ++ ' ' :: r := ⟨[c], rfl⟩

theorem reHeaderGlyphs_sound (u s h : Option Str) (cs : Str)
    (g : HeaderGroups) (rest : Str)
    (hm : reHeaderGlyphs u s h cs = some (g, rest)) :
    ∃ glyphs, cs = glyphs ++ ' ' :: rest := by
  match cs with
  | [] => simp [reHeaderGlyphs] at hm
  | c :: tl =>
    rw [reHeaderGlyphs] at hm
    split at hm
    · exact absurd hm (by simp)
    · split at hm
      · exact absurd hm (by simp)
      · split at hm
        · split at hm
          · exact absurd hm (by simp)
          · split at hm
            · rename_i hsp
              rw [Option.some.injEq, Prod.mk.injEq] at hm
              obtain ⟨-, hrest⟩ := hm
              subst hrest
              subst hsp
              exact exists_glyphs_two _ _ _
            · exact absurd hm (by simp)
        · split at hm
          · rename_i hsp
            rw [Option.some.injEq, Prod.mk.injEq] at hm
            obtain ⟨-, hrest⟩ := hm
            subst hrest
            subst hsp
            exact exists_glyphs_one _ _
          · exact absurd hm (by simp)

theorem reHeaderAfterUser_sound (u s : Option Str) (r : Str)
    (g : HeaderGroups) (rest : Str)
    (hm : reHeaderAfterUser u s r = some (g, rest)) :
    ∃ glyphs, r = glyphs ++ ' ' :: rest := by
  match r with
  | [] => simp [reHeaderAfterUser] at hm
  | c :: r4 =>
    rw [reHeaderAfterUser] at hm
    by_cases hc : c = '@'
    · rw [if_pos hc] at hm
      dsimp only at hm
      match hr5 : r4.dropWhile isLowerAlpha with
      | [] => rw [hr5] at hm; exact absurd hm (by simp)
      | br :: r6 =>
        rw [hr5] at hm
        dsimp only at hm
        by_cases hbr : br = ']'
        · rw [if_pos hbr] at hm
          obtain ⟨glyphs, hg⟩ := reHeaderGlyphs_sound _ _ _ _ _ _ hm
          refine ⟨c :: (r4.takeWhile isLowerAlpha ++ br :: glyphs), ?_⟩
          have h4 : r4 = r4.takeWhile isLowerAlpha ++ br :: r6 := by
            conv_lhs => rw [← List.takeWhile_append_dropWhile isLowerAlpha r4]
            rw [hr5]
          conv_lhs => rw [h4, hg]
          simp
        · rw [if_neg hbr] at hm
          exact absurd hm (by simp)
    · rw [if_neg hc] at hm
      exact absurd hm (by simp)

theorem reHeaderMatch_sound (line : Str) (g : HeaderGroups) (rest : Str)
    (hm : reHeaderMatch line = some (g, rest)) :
    ∃ glyphs, line = glyphs ++ ' ' :: rest := by
  match line with
  | [] => simp [reHeaderMatch] at hm
  | c :: tl =>
    rw [reHeaderMatch] at hm
    by_cases hc : c = '['
    · rw [if_pos hc] at hm
      dsimp only at hm
      match hr1 : tl.dropWhile isLowerAlpha with
      | [] => rw [hr1] at hm; exact absurd hm (by simp)
      | c2 :: r2 =>
        rw [hr1] at hm
        dsimp only at hm
        have htl : tl = tl.takeWhile isLowerAlpha ++ c2 :: r2 := by
          conv_lhs => rw [← List.takeWhile_append_dropWhile isLowerAlpha tl]
          rw [hr1]
        by_cases hc2 : c2 = ':'
        · rw [if_pos hc2] at hm
          by_cases hse : (r2.takeWhile isLowerDigit).isEmpty
          · rw [if_pos hse] at hm
            exact absurd hm (by simp)
          · rw [if_neg hse] at hm
            obtain ⟨glyphs, hg⟩ := reHeaderAfterUser_sound _ _ _ _ _ hm
            have hr2 : r2 = r2.takeWhile isLowerDigit ++ (glyphs ++ ' ' :: rest) := by
              conv_lhs => rw [← List.takeWhile_append_dropWhile isLowerDigit r2]
              rw [hg]
            refine ⟨c :: (tl.takeWhile isLowerAlpha ++
              c2 :: (r2.takeWhile isLowerDigit ++ glyphs)), ?_⟩
            conv_lhs => rw [htl, hr2]
            simp
        · rw [if_neg hc2] at hm
          obtain ⟨glyphs, hg⟩ := reHeaderAfterUser_sound _ _ _ _ _ hm
          refine ⟨c :: (tl.takeWhile isLowerAlpha ++ glyphs), ?_⟩
          conv_lhs => rw [htl, hg]
          simp
    · rw [if_neg hc] at hm
      exact reHeaderGlyphs_sound _ _ _ _ _ _ hm

/-- Claim C8: for every line matching the header grammar, the created
command's text is everything after the single mandatory space following
the glyphs; the assert mode defaults to LITERAL when only the execution
glyph is present; the host defaults to `"remote"` when the bracket group
is absent or its host part is empty; the user stays unspecified when the
user part is empty; and `%` (ROOT) forces `user = "root"` regardless of
any user given in the brackets. -/
theorem c8_header_command (path : Str) (n : Nat) (line : Str)
    (g : HeaderGroups) (rest : Str)
    (hm : reHeaderMatch line = some (g, rest)) :
    (∃ glyphs, line = glyphs ++ ' ' :: rest) ∧
    (build_command path n line g rest).command = rest ∧
    (build_command path n line g rest).assert_mode =
      g.assert_mode.getD AssertMode.LITERAL ∧
    (g.host = none → (build_command path n line g rest).host = "remote".toList) ∧
    (∀ hst, g.host = some hst → (build_command path n line g rest).host = hst) ∧
    (g.execution_mode ≠ ExecutionMode.ROOT →
      (build_command path n line g rest).user = g.user) ∧
    (g.execution_mode = ExecutionMode.ROOT →
      (build_command path n line g rest).user = some ("root".toList)) := by
  refine ⟨reHeaderMatch_sound line g rest hm, rfl, rfl, ?_, ?_, ?_, ?_⟩
  · intro h
    simp [build_command, h]
  · intro hst h
    simp [build_command, h]
  · intro h
    simp [build_command, if_neg h]
  · intro h
    simp [build_command, if_pos h]

/-- Closed witness for `c8_header_command` at the line
`[ab:c1@de]%~ ls -la`. -/
theorem c8_header_command_wit :
    (build_command [] 3 ("[ab:c1@de]%~ ls -la".toList)
        ⟨some ("ab".toList), some ("c1".toList), some ("de".toList),
          ExecutionMode.ROOT, some AssertMode.REGEX⟩
        ("ls -la".toList)).user = some ("root".toList) ∧
    (∃ glyphs, ("[ab:c1@de]%~ ls -la".toList : Str) =
      glyphs ++ ' ' :: ("ls -la".toList)) := by
  have h := c8_header_command [] 3 ("[ab:c1@de]%~ ls -la".toList)
    ⟨some ("ab".toList), some ("c1".toList), some ("de".toList),
      ExecutionMode.ROOT, some AssertMode.REGEX⟩
    ("ls -la".toList) (by decide)
  exact ⟨h.2.2.2.2.2.2 rfl, h.1⟩

/-- `strip_expected` never changes the assert mode. -/
theorem strip_expected_assert_mode (c : Command) :
    (strip_expected c).assert_mode = c.assert_mode := by
  cases hc : c.assert_mode <;> simp [strip_expected, hc]

/-- Claim C7: after parsing, LITERAL commands' `expected` has no leading or
trailing CR/LF, REGEX commands' `expected` has no trailing newline, and
IGNORE commands keep the accumulated output lines unchanged (the final
normalization loop is the identity on them); this covers commands brought
in via includes because the loop runs over the full command list. -/
theorem c7_expected_normalization (incl : IncludeResolver) (path : Str)
    (body : List Str) (off : Nat) :
    (parse_commands incl path body off).commands =
      (parse_commands_accumulate incl path body off).commands.map strip_expected ∧
    (∀ c, c.assert_mode = AssertMode.IGNORE → strip_expected c = c) ∧
    (∀ c ∈ (parse_commands incl path body off).commands,
      (c.assert_mode = AssertMode.LITERAL →
        ∀ ch, (c.expected.head? = some ch ∨ c.expected.getLast? = some ch) →
          is_crlf ch = false) ∧
      (c.assert_mode = AssertMode.REGEX →
        ∀ ch, c.expected.getLast? = some ch → ch ≠ '\n')) := by
  refine ⟨rfl, ?_, ?_⟩
  · intro c h
    unfold strip_expected
    rw [h]
  · intro c hc
    have hmem : c ∈ (parse_commands_accumulate incl path body off).commands.map
        strip_expected := hc
    obtain ⟨c0, _, rfl⟩ := List.mem_map.mp hmem
    constructor
    · intro hlit ch hch
      have h0 : c0.assert_mode = AssertMode.LITERAL := by
        rw [← strip_expected_assert_mode c0]
        exact hlit
      have hexp : (strip_expected c0).expected = strip_crlf c0.expected := by
        unfold strip_expected
        rw [h0]
      rw [hexp] at hch
      rcases hch with hch | hch
      · exact head?_strip_crlf _ _ hch
      · exact getLast?_strip_crlf _ _ hch
    · intro hre ch hch
      have h0 : c0.assert_mode = AssertMode.REGEX := by
        rw [← strip_expected_assert_mode c0]
        exact hre
      have hexp : (strip_expected c0).expected = rstrip_newlines c0.expected := by
        unfold strip_expected
        rw [h0]
      rw [hexp] at hch
      exact getLast?_rstrip_newlines _ _ hch

/-- Closed witness for `c7_expected_normalization`: parsing
`% ls` / `a` yields a LITERAL command with stripped `expected = "a"`,
whose head character is not CR/LF. -/
theorem c7_expected_normalization_wit : is_crlf 'a' = false := by
  have h := c7_expected_normalization (fun _ => none) ("p".toList)
    ["% ls".toList, "a".toList] 0
  have hmem : (build_command ("p".toList) 1 ("% ls".toList)
      ⟨none, none, none, ExecutionMode.ROOT, none⟩ ("ls".toList)).expected = [] := rfl
  refine (h.2.2 ⟨ExecutionMode.ROOT, "ls".toList, some ("root".toList), none,
    "remote".toList, AssertMode.LITERAL, "a".toList, "p".toList, 1,
    "% ls".toList, false⟩ (by decide)).1 rfl 'a' (Or.inl rfl)

/-- Claim C4 (code-bug evidence): parsing the file `$ echo a` / `a` —
a `$` header with neither a user nor `host == "local"` — records **no**
parse error and yields a USER command with `user = None`,
`host = "remote"`, although the spec (and `test_parse_error_no_user` in
the repository's own test suite) require an error to be recorded. -/
theorem c4_missing_user_no_error :
    (parse_commands (fun _ => none) ("virtual.ispec".toList)
        ["$ echo a".toList, "a".toList] 0).errors = [] ∧
    (parse_commands (fun _ => none) ("virtual.ispec".toList)
        ["$ echo a".toList, "a".toList] 0).commands.map
      (fun c => (c.execution_mode, c.user, c.host)) =
      [(ExecutionMode.USER, none, "remote".toList)] := by
  constructor <;> decide

/-- Claim C9: `settings.timeout_seconds` is 5 unless front-matter or
project-config settings supply one, and both dir lists consist of the
configured directories (resolved against the supplying document's
directory) with the spec file's own directory appended as the last
entry. -/
theorem c9_settings_defaults (fm cfg : YamlDoc) (osEnv : EnvMap)
    (resolve : Str → Str → Str) (specDir configDir : Str) :
    ((fm.settingsD.timeout_seconds = none → cfg.settingsD.timeout_seconds = none →
      (parse_apply_config fm cfg osEnv resolve specDir configDir).settings.timeout_seconds
        = 5)) ∧
    (parse_apply_config fm cfg osEnv resolve specDir configDir).settings.include_dirs.getLast?
      = some specDir ∧
    (parse_apply_config fm cfg osEnv resolve specDir configDir).settings.fixture_dirs.getLast?
      = some specDir ∧
    (parse_apply_config fm cfg osEnv resolve specDir configDir).settings.include_dirs
      = (((fm.settingsD.include_dirs).orElse (fun _ => cfg.settingsD.include_dirs)).getD []).map
          (resolve (if (fm.settingsD.include_dirs).isSome then specDir else configDir))
        ++ [specDir] ∧
    (parse_apply_config fm cfg osEnv resolve specDir configDir).settings.fixture_dirs
      = (((fm.settingsD.fixture_dirs).orElse (fun _ => cfg.settingsD.fixture_dirs)).getD []).map
          (resolve (if (fm.settingsD.fixture_dirs).isSome then specDir else configDir))
        ++ [specDir] := by
  refine ⟨?_, ?_, ?_, rfl, rfl⟩
  · intro h1 h2
    simp [parse_apply_config, applySettings, h1, h2, Option.orElse]
  · exact List.getLast?_concat _
  · exact List.getLast?_concat _

/-- Closed witness for `c9_settings_defaults` with empty documents: the
timeout defaults to 5. -/
theorem c9_settings_defaults_wit :
    (parse_apply_config {} {} [] (fun _ p => p) ("sd".toList)
      ("cd".toList)).settings.timeout_seconds = 5 := by
  exact (c9_settings_defaults {} {} [] (fun _ p => p) ("sd".toList)
    ("cd".toList)).1 rfl rfl

/-- Claim C2 (code-bug evidence): an environment variable `K` defined in
the spec front-matter as `fm` and in the project config as `gc` ends up
with the **project-config** value `gc`, because the per-key environment
merge loop reads the front-matter override from the `settings:` block
(`frontmatter_settings.get("environment", {})`) instead of the top-level
front-matter `environment`, and then overwrites the top-level value.  The
spec (and `test_global_config_combine` in the repository's test suite)
require the front-matter value to win. -/
theorem c2_env_config_overwrites_frontmatter :
    (parse_apply_config
        { environment := some [(("K".toList), ("fm".toList))] }
        { environment := some [(("K".toList), ("gc".toList))] }
        [] (fun _ p => p) ("sd".toList) ("cd".toList)).environment
      = [(("K".toList), ("gc".toList))] ∧
    mergeKey (some [(("K".toList), ("fm".toList))])
        (some [(("K".toList), ("gc".toList))]) ([] : EnvMap)
      = [(("K".toList), ("fm".toList))] := by
  constructor <;> decide

theorem pyFormatFuel_no_braces (e : EnvMap) :
    ∀ (fuel : Nat) (s : Str), s.length < fuel → no_braces s = true →
      pyFormatFuel e fuel none s = some s := by
  intro fuel
  induction fuel with
  | zero =>
    intro s hlen _
    omega
  | succ n ih =>
    intro s hlen hnb
    match s with
    | [] => rfl
    | c :: rest =>
      show (if c = braceL then _ else if c = braceR then _ else
        (pyFormatFuel e n none rest).map (fun t => c :: t)) = some (c :: rest)
      simp only [no_braces, List.all_cons, Bool.and_eq_true, Bool.not_eq_true',
        decide_eq_false_iff_not] at hnb
      obtain ⟨⟨hcl, hcr⟩, htl⟩ := hnb
      rw [if_neg hcl, if_neg hcr]
      have hres := ih rest (by simpa using Nat.lt_of_succ_lt_succ hlen)
        (by simpa [no_braces] using htl)
      rw [hres]
      rfl

theorem pyFormat_no_braces (e : EnvMap) (s : Str) (h : no_braces s = true) :
    pyFormat e s = some s :=
  pyFormatFuel_no_braces e (s.length + 1) s (Nat.lt_succ_self _) h

theorem format_command_no_braces (e : EnvMap) (c : Command)
    (h : no_braces_command c = true) : format_command e c = some c := by
  simp only [no_braces_command, Bool.and_eq_true] at h
  obtain ⟨⟨h1, h2⟩, h3⟩ := h
  unfold format_command
  rw [pyFormat_no_braces e _ h1, pyFormat_no_braces e _ h2, pyFormat_no_braces e _ h3]

theorem mutateAll_preserves_lt (e : EnvMap) :
    ∀ (is : List Nat) (h h' : CmdHeap) (m : Nat),
      (∀ j ∈ is, m ≤ j) → mutateAll e is h = some h' →
      ∀ i, i < m → heapGet h' i = heapGet h i := by
  intro is
  induction is with
  | nil =>
    intro h h' m _ hm i _
    rw [mutateAll] at hm
    injection hm with hm
    rw [hm]
  | cons j js ih =>
    intro h h' m hall hm i hi
    rw [mutateAll] at hm
    cases hfc : format_command e (heapGet h j) with
    | none => rw [hfc] at hm; exact absurd hm (by simp)
    | some c =>
      rw [hfc] at hm
      have hstep := ih ⟨h.cells.set j c⟩ h' m
        (fun x hx => hall x (List.mem_cons_of_mem _ hx)) hm i hi
      rw [hstep]
      have hji : j ≠ i := by
        have := hall j (List.mem_cons_self _ _)
        omega
      simp [heapGet, List.getD_eq_getElem?_getD, List.getElem?_set_ne hji]

theorem set_getD_self : ∀ (l : List Command) (i : Nat), i < l.length →
    l.set i (l.getD i default) = l := by
  intro l
  induction l with
  | nil => intro i hi; simp at hi
  | cons a as ih =>
    intro i hi
    cases i with
    | zero => simp [List.getD]
    | succ k =>
      show a :: as.set k ((a :: as).getD (k + 1) default) = a :: as
      rw [List.getD_cons_succ]
      rw [ih k (by simpa using Nat.lt_of_succ_lt_succ hi)]

theorem mutateAll_id (e : EnvMap) :
    ∀ (is : List Nat) (h : CmdHeap),
      (∀ j ∈ is, j < h.cells.length) →
      (∀ j ∈ is, no_braces_command (heapGet h j) = true) →
      mutateAll e is h = some h := by
  intro is
  induction is with
  | nil => intro h _ _; rfl
  | cons j js ih =>
    intro h hlt hnb
    rw [mutateAll]
    rw [format_command_no_braces e _ (hnb j (List.mem_cons_self _ _))]
    dsimp only
    have hset : h.cells.set j (heapGet h j) = h.cells :=
      set_getD_self h.cells j (hlt j (List.mem_cons_self _ _))
    have hrepack : (⟨h.cells.set j (heapGet h j)⟩ : CmdHeap) = h := by
      cases h
      simp only [CmdHeap.mk.injEq]
      exact hset
    rw [hrepack]
    exact ih h (fun x hx => hlt x (List.mem_cons_of_mem _ hx))
      (fun x hx => hnb x (List.mem_cons_of_mem _ hx))

theorem map_range'_heapGet :
    ∀ (vals : List Command) (cells : List Command),
      (List.range' cells.length vals.length).map (heapGet ⟨cells ++ vals⟩) = vals := by
  intro vals
  induction vals with
  | nil => intro cells; simp [List.range']
  | cons v vs ih =>
    intro cells
    simp only [List.length_cons, List.range'_succ, List.map_cons]
    congr 1
    · have hv : (cells ++ v :: vs)[cells.length]? = some v := by
        rw [List.getElem?_append]
        simp
      simp [heapGet, List.getD_eq_getElem?_getD, hv]
    · have hsplit : cells ++ v :: vs = (cells ++ [v]) ++ vs := by simp
      have hlen : cells.length + 1 = (cells ++ [v]).length := by simp
      rw [hsplit, hlen]
      exact ih (cells ++ [v])

/-- Claim C6: `as_example` does not mutate the original command objects
(it mutates only the freshly allocated copies), and when every formatted
field is placeholder-free the copies' values equal the originals'. -/
theorem c6_as_example_pure (h : CmdHeap) (refs : List Nat) (e : EnvMap)
    (hwf : ∀ i ∈ refs, i < h.cells.length)
    (h2 : CmdHeap) (newRefs : List Nat)
    (hrun : as_example_heap h refs e = some (h2, newRefs)) :
    (∀ i ∈ refs, heapGet h2 i = heapGet h i) ∧
    ((∀ i ∈ refs, no_braces_command (heapGet h i) = true) →
      newRefs.map (heapGet h2) = refs.map (heapGet h)) := by
  unfold as_example_heap at hrun
  simp only [allocCopies] at hrun
  set h1 : CmdHeap := ⟨h.cells ++ refs.map (heapGet h)⟩ with hh1
  set nr : List Nat := List.range' h.cells.length refs.length with hnr
  cases hm : mutateAll e nr h1 with
  | none => rw [hm] at hrun; exact absurd hrun (by simp)
  | some hh =>
    rw [hm] at hrun
    injection hrun with hrun
    injection hrun with hrA hrB
    obtain rfl : h2 = hh := hrA.symm
    obtain rfl : newRefs = nr := hrB.symm
    have hmap1 : nr.map (heapGet h1) = refs.map (heapGet h) := by
      rw [hnr, hh1]
      rw [show refs.length = (refs.map (heapGet h)).length by simp]
      exact map_range'_heapGet (refs.map (heapGet h)) h.cells
    constructor
    · intro i hi
      have hilt : i < h.cells.length := hwf i hi
      have hnrge : ∀ j ∈ nr, h.cells.length ≤ j := by
        intro j hj
        rw [hnr] at hj
        have := List.mem_range'_1.mp hj
        omega
      have hpres := mutateAll_preserves_lt e nr h1 h2 h.cells.length hnrge hm i hilt
      rw [hpres]
      simp [heapGet, hh1, List.getD_eq_getElem?_getD, List.getElem?_append, hilt]
    · intro hnb
      have hnb1 : ∀ j ∈ nr, no_braces_command (heapGet h1 j) = true := by
        intro j hj
        have : heapGet h1 j ∈ nr.map (heapGet h1) := List.mem_map_of_mem _ hj
        rw [hmap1] at this
        obtain ⟨i, hi, hval⟩ := List.mem_map.mp this
        rw [← hval]
        exact hnb i hi
      have hlt1 : ∀ j ∈ nr, j < h1.cells.length := by
        intro j hj
        rw [hnr] at hj
        have := List.mem_range'_1.mp hj
        simp [hh1]
        omega
      have hid := mutateAll_id e nr h1 hlt1 hnb1
      rw [hid] at hm
      injection hm with hm
      rw [← hm]
      exact hmap1

/-- Closed witness for `c6_as_example_pure` on a one-command heap with a
placeholder-free command. -/
theorem c6_as_example_pure_wit :
    ([1] : List Nat).map (heapGet ⟨[mainCmd, mainCmd]⟩) =
      ([0] : List Nat).map (heapGet ⟨[mainCmd]⟩) := by
  have h := c6_as_example_pure ⟨[mainCmd]⟩ [0]
    [(("X".toList), ("1".toList))] (by decide) ⟨[mainCmd, mainCmd]⟩ [1] (by decide)
  exact h.2 (by decide)

/-- Claim C3 (code-bug evidence): `as_example` produces a copy whose
`fixture_specfile_pre`/`fixture_specfile_post` are reset to `None`
although the original carries both, so `Runner.run` on the example copy
never executes the fixture commands (no `COMMAND_STARTING` for the
fixture's command is reported), while the same run on the original
does. -/
theorem c3_as_example_drops_fixtures :
    PSpecfile.as_example c3Spec c3Example = some c3Copy ∧
    PSpecfile.fixturePreOf c3Spec = OptSpecfile.some c3FixturePre ∧
    PSpecfile.fixturePostOf c3Spec = OptSpecfile.some c3FixturePost ∧
    PSpecfile.fixturePreOf c3Copy = OptSpecfile.none ∧
    PSpecfile.fixturePostOf c3Copy = OptSpecfile.none ∧
    (ShellRunner.run oracle0 sshCfg0 [] c3Spec none runnerState0).state.events.contains
      (REvent.COMMAND_STARTING fixtureCmd) = true ∧
    (ShellRunner.run oracle0 sshCfg0 [] c3Copy none runnerState0).state.events.contains
      (REvent.COMMAND_STARTING fixtureCmd) = false :=
  ⟨rfl, rfl, rfl, rfl, rfl, by decide, by decide⟩

/-- Claim C5 counterexample: running a spec file whose first command is
the literal `logout` crashes with a `KeyError` from
`used_sessions.remove(session)` (the session was created by
`_get_session` but never entered the used set), instead of emitting
`COMMAND_PASSED`; the only reported event is `COMMAND_STARTING`. -/
theorem c5_logout_first_keyerror :
    (ShellRunner.run oracle0 sshCfg0 [] c5Spec none runnerState0).result =
      Except.error RunErr.keyError ∧
    (ShellRunner.run oracle0 sshCfg0 [] c5Spec none runnerState0).state.events =
      [REvent.COMMAND_STARTING logoutCmd] :=
  ⟨rfl, by decide⟩

theorem countP_filter_not_length {α : Type} (p : α → Bool) :
    ∀ l : List α, (l.filter (fun a => !(p a))).length + l.countP p = l.length := by
  intro l
  induction l with
  | nil => rfl
  | cons a as ih =>
    rw [List.countP_cons, List.filter_cons]
    cases hp : p a <;> simp [hp] <;> omega

/-- Claim C5, amended: when the session `_get_session` returns for the
`logout` command is already in the used set (an earlier command ran on
it), the step closes exactly that pool entry (removing exactly one
session when the key occurs once), removes the session from the used set,
reports `COMMAND_PASSED` with returncode 0 and empty actual output, and
the run continues with the next command. -/
theorem c5_logout_on_used_session (O : Oracle) (cfg : SshConfig) (ctx : EnvMap)
    (cmd : Command) (st : RunState) (used : List Nat) (s : Nat) (key : SessKey)
    (hcmd : cmd.command = "logout".toList)
    (hmode : cmd.execution_mode ≠ ExecutionMode.PYTHON)
    (hkey : ShellRunner.get_session_key cfg cmd = Except.ok key)
    (hpool : assocLookup st.sessions key = some s)
    (hopen : st.closedSessions.contains s = false)
    (hused : used.contains s = true)
    (honce : st.sessions.countP (fun p => p.1 == key) = 1) :
    ShellRunner.run_step O cfg ctx cmd st used =
      (ShellRunner.StepSig.next,
       addEvent
         { addEvent st (REvent.COMMAND_STARTING cmd) with
            sessions := assocErase st.sessions key,
            closedSessions := st.closedSessions ++ [s] }
         (REvent.COMMAND_PASSED (some 0) (some [])),
       used.erase s) ∧
    (assocErase st.sessions key).length + 1 = st.sessions.length := by
  constructor
  · unfold ShellRunner.run_step
    dsimp only
    have hsess : (addEvent st (REvent.COMMAND_STARTING cmd)).sessions = st.sessions := rfl
    have hclosed : (addEvent st (REvent.COMMAND_STARTING cmd)).closedSessions =
        st.closedSessions := rfl
    have hget : ShellRunner.get_session cfg cmd (addEvent st (REvent.COMMAND_STARTING cmd)) =
        Except.ok (s, addEvent st (REvent.COMMAND_STARTING cmd)) := by
      unfold ShellRunner.get_session
      rw [hkey]
      show (match assocLookup st.sessions key with
        | none => Except.ok (ShellRunner.make_session key
            (addEvent st (REvent.COMMAND_STARTING cmd)))
        | some s => _) = _
      rw [hpool]
      simp only [hclosed, hopen]
      rfl
    rw [hget]
    cases hexec : cmd.execution_mode with
    | PYTHON => exact absurd hexec hmode
    | USER =>
      simp only
      rw [if_pos hcmd]
      have hclose : ShellRunner.close_session cfg cmd
          (addEvent st (REvent.COMMAND_STARTING cmd)) =
          Except.ok { addEvent st (REvent.COMMAND_STARTING cmd) with
            sessions := assocErase st.sessions key,
            closedSessions := st.closedSessions ++ [s] } := by
        unfold ShellRunner.close_session
        rw [hkey]
        show (match assocLookup st.sessions key with
          | some s => _
          | none => Except.error RunErr.sessionCloseMissing) = _
        rw [hpool]
        rfl
      rw [hclose]
      simp only [hused]
      rfl
    | ROOT =>
      simp only
      rw [if_pos hcmd]
      have hclose : ShellRunner.close_session cfg cmd
          (addEvent st (REvent.COMMAND_STARTING cmd)) =
          Except.ok { addEvent st (REvent.COMMAND_STARTING cmd) with
            sessions := assocErase st.sessions key,
            closedSessions := st.closedSessions ++ [s] } := by
        unfold ShellRunner.close_session
        rw [hkey]
        show (match assocLookup st.sessions key with
          | some s => _
          | none => Except.error RunErr.sessionCloseMissing) = _
        rw [hpool]
        rfl
      rw [hclose]
      simp only [hused]
      rfl
  · have := countP_filter_not_length (fun p => p.1 == key) st.sessions
    unfold assocErase
    omega

/-- Closed witness for `c5_logout_on_used_session` at a state whose pool
holds the logout command's session and whose used set contains it. -/
theorem c5_logout_on_used_session_wit :
    ShellRunner.run_step oracle0 sshCfg0 [] logoutCmd
        { runnerState0 with sessions := [(logoutKey, 0)], nextSession := 1 } [0] =
      (ShellRunner.StepSig.next,
       addEvent
         { addEvent { runnerState0 with sessions := [(logoutKey, 0)], nextSession := 1 }
             (REvent.COMMAND_STARTING logoutCmd) with
            sessions := assocErase [(logoutKey, 0)] logoutKey,
            closedSessions := [] ++ [0] }
         (REvent.COMMAND_PASSED (some 0) (some [])),
       ([0] : List Nat).erase 0) ∧
    (assocErase [(logoutKey, 0)] logoutKey).length + 1 =
      ([(logoutKey, 0)] : List (SessKey × Nat)).length := by
  have h := c5_logout_on_used_session oracle0 sshCfg0 [] logoutCmd
    { runnerState0 with sessions := [(logoutKey, 0)], nextSession := 1 } [0] 0 logoutKey
    rfl (by decide) rfl (by decide) (by decide) (by decide) (by decide)
  exact h

theorem session_run_command_popped (O : Oracle) (s : Nat) (st : RunState) :
    (ShellRunner.session_run_command O s st).2.popped = st.popped := by
  unfold ShellRunner.session_run_command
  cases O.shell st.tick <;> rfl

theorem make_session_popped (key : SessKey) (st : RunState) :
    (ShellRunner.make_session key st).2.popped = st.popped := rfl

theorem get_session_popped (cfg : SshConfig) (cmd : Command) (st : RunState)
    (s : Nat) (st' : RunState)
    (h : ShellRunner.get_session cfg cmd st = Except.ok (s, st')) :
    st'.popped = st.popped := by
  unfold ShellRunner.get_session at h
  cases hk : ShellRunner.get_session_key cfg cmd with
  | error e =>
    rw [hk] at h
    exact absurd h (by simp [Bind.bind, Except.bind])
  | ok key =>
    rw [hk] at h
    dsimp only [Bind.bind, Except.bind] at h
    cases hl : assocLookup st.sessions key with
    | none =>
      rw [hl] at h
      injection h with h
      have := congrArg (fun q => q.2.popped) h
      simpa [ShellRunner.make_session] using this.symm
    | some s0 =>
      rw [hl] at h
      by_cases hcl : st.closedSessions.contains s0
      · simp only [hcl, if_true] at h
        injection h with h
        have := congrArg (fun q => q.2.popped) h
        simpa [ShellRunner.make_session] using this.symm
      · simp only [hcl, if_false, Bool.false_eq_true] at h
        injection h with h
        have := congrArg (fun q => q.2.popped) h
        simpa using this.symm

theorem close_session_popped (cfg : SshConfig) (cmd : Command) (st st' : RunState)
    (h : ShellRunner.close_session cfg cmd st = Except.ok st') :
    st'.popped = st.popped := by
  unfold ShellRunner.close_session at h
  cases hk : ShellRunner.get_session_key cfg cmd with
  | error e =>
    rw [hk] at h
    exact absurd h (by simp [Bind.bind, Except.bind])
  | ok key =>
    rw [hk] at h
    dsimp only [Bind.bind, Except.bind] at h
    cases hl : assocLookup st.sessions key with
    | none =>
      rw [hl] at h
      exact absurd h (by simp)
    | some s0 =>
      rw [hl] at h
      injection h with h
      rw [← h]

theorem run_command_step_popped (O : Oracle) (s : Nat) (cmd : Command) (st : RunState) :
    (ShellRunner.run_command_step O s cmd st).2.popped = st.popped := by
  unfold ShellRunner.run_command_step
  cases h1 : ShellRunner.session_run_command O s st with
  | mk r1 st1 =>
    have e1 : st1.popped = st.popped := by
      have := session_run_command_popped O s st
      rw [h1] at this
      exact this
    cases r1 with
    | error so => simpa [addEvent] using e1
    | ok out =>
      dsimp only
      cases h2 : ShellRunner.session_run_command O s st1 with
      | mk r2 st2 =>
        have e2 : st2.popped = st1.popped := by
          have := session_run_command_popped O s st1
          rw [h2] at this
          exact this
        cases r2 with
        | error so => simp [addEvent, e2, e1]
        | ok rcout =>
          dsimp only
          cases ShellRunner.pyInt rcout with
          | none => simp [e2, e1]
          | some rc =>
            cases hcr : ShellRunner.check_result O.regexSearch cmd out rc <;>
              simp [hcr, addEvent, e2, e1]

theorem run_command_step_match_popped (O : Oracle) (s : Nat) (cmd : Command)
    (R : RunState) (used' : List Nat) :
    ((match ShellRunner.run_command_step O s cmd R with
      | (Except.error e, st) => (ShellRunner.StepSig.crash e, st, used')
      | (Except.ok true, st) => (ShellRunner.StepSig.next, st, used')
      | (Except.ok false, st) =>
        (ShellRunner.StepSig.failStop, addEvent st REvent.RUN_FAILED, used')) :
      ShellRunner.StepSig × RunState × List Nat).2.1.popped = R.popped := by
  cases hrc : ShellRunner.run_command_step O s cmd R with
  | mk r st3 =>
    have hp := run_command_step_popped O s cmd R
    rw [hrc] at hp
    cases r with
    | error e => exact hp
    | ok b => cases b <;> simpa [addEvent] using hp

theorem run_step_popped (O : Oracle) (cfg : SshConfig) (ctx : EnvMap)
    (cmd : Command) (st : RunState) (used : List Nat) :
    (ShellRunner.run_step O cfg ctx cmd st used).2.1.popped = st.popped := by
  unfold ShellRunner.run_step
  dsimp only
  cases hg : ShellRunner.get_session cfg cmd (addEvent st (REvent.COMMAND_STARTING cmd)) with
  | error e => simp [addEvent]
  | ok pr =>
    obtain ⟨s, st1⟩ := pr
    have h1 : st1.popped = st.popped := by
      have := get_session_popped cfg cmd (addEvent st (REvent.COMMAND_STARTING cmd)) s st1 hg
      simpa [addEvent] using this
    cases cmd.execution_mode with
    | PYTHON =>
      dsimp only
      cases hrc : ShellRunner.session_run_command O s st1 with
      | mk r st2 =>
        have h2 : st2.popped = st1.popped := by
          have := session_run_command_popped O s st1
          rw [hrc] at this
          exact this
        cases r with
        | error msg => simp [h2, h1]
        | ok out =>
          dsimp only
          cases O.py st2.tick <;> simp [addEvent, h2, h1]
    | USER =>
      dsimp only
      by_cases hlc : cmd.command = "logout".toList
      · simp only [hlc, if_true]
        cases hcl : ShellRunner.close_session cfg cmd st1 with
        | error e => simpa using h1
        | ok st2 =>
          have h2 : st2.popped = st1.popped := close_session_popped cfg cmd st1 st2 hcl
          by_cases hus : s ∈ used
          · simp [hus, addEvent, h2, h1]
          · simp [hus, h2, h1]
      · simp only [hlc, if_false]
        by_cases hus : used.contains s
        · simp only [hus, if_true]
          exact (run_command_step_match_popped O s cmd _ _).trans h1
        · simp only [hus, if_false]
          exact (run_command_step_match_popped O s cmd _ _).trans h1
    | ROOT =>
      dsimp only
      by_cases hlc : cmd.command = "logout".toList
      · simp only [hlc, if_true]
        cases hcl : ShellRunner.close_session cfg cmd st1 with
        | error e => simpa using h1
        | ok st2 =>
          have h2 : st2.popped = st1.popped := close_session_popped cfg cmd st1 st2 hcl
          by_cases hus : s ∈ used
          · simp [hus, addEvent, h2, h1]
          · simp [hus, h2, h1]
      · simp only [hlc, if_false]
        by_cases hus : used.contains s
        · simp only [hus, if_true]
          exact (run_command_step_match_popped O s cmd _ _).trans h1
        · simp only [hus, if_false]
          exact (run_command_step_match_popped O s cmd _ _).trans h1

theorem run_loop_popped (O : Oracle) (cfg : SshConfig) (ctx : EnvMap) :
    ∀ (cmds : List Command) (st : RunState) (used : List Nat),
      (ShellRunner.run_loop O cfg ctx cmds st used).2.1.popped = st.popped := by
  intro cmds
  induction cmds with
  | nil => intro st used; rfl
  | cons c cs ih =>
    intro st used
    rw [ShellRunner.run_loop]
    cases hs : ShellRunner.run_step O cfg ctx c st used with
    | mk sig pr =>
      obtain ⟨st1, used1⟩ := pr
      have h1 : st1.popped = st.popped := by
        have := run_step_popped O cfg ctx c st used
        rw [hs] at this
        exact this
      cases sig with
      | next =>
        dsimp only
        rw [ih st1 used1, h1]
      | failStop => exact h1
      | crash e => exact h1

theorem runFinalize_popped (outer : Option (List Nat))
    (body : Except RunErr Bool × RunState × List Nat)
    (h : outer.isNone = false) :
    (ShellRunner.runFinalize outer body).state.popped = body.2.1.popped := by
  unfold ShellRunner.runFinalize
  dsimp only
  simp only [h, Bool.false_eq_true, if_false]
  cases body.1 with
  | error e => rfl
  | ok b => cases b <;> rfl

theorem runFuel_popped (O : Oracle) (cfg : SshConfig) (ctx : EnvMap) :
    ∀ (fuel : Nat) (sf : PSpecfile) (outer : Option (List Nat)) (st : RunState),
      outer.isNone = false →
      ((ShellRunner.runFuel O cfg ctx fuel sf outer st).state).popped = st.popped := by
  intro fuel
  induction fuel with
  | zero => intro sf outer st _; rfl
  | succ n ih =>
    intro sf outer st houter
    match sf with
    | PSpecfile.mk path cmds errs env exs fx sc pre post ap tg sett isf =>
      have hbody : ∀ body : Except RunErr Bool × RunState × List Nat,
          body.2.1.popped = st.popped →
          ((ShellRunner.runFinalize outer body).state).popped = st.popped := by
        intro body hb
        rw [runFinalize_popped outer body houter, hb]
      cases pre with
      | none =>
        cases post with
        | none =>
          rw [ShellRunner.runFuel]
          apply hbody
          dsimp only [ShellRunner.runPreStage]
          cases hl : ShellRunner.run_loop O cfg ctx cmds st (ShellRunner.runUsed0 outer) with
          | mk r pr =>
            obtain ⟨st1, used1⟩ := pr
            have h1 : st1.popped = st.popped := by
              have := run_loop_popped O cfg ctx cmds st (ShellRunner.runUsed0 outer)
              rw [hl] at this
              exact this
            cases r with
            | error e => exact h1
            | ok b => exact h1
        | some q =>
          rw [ShellRunner.runFuel]
          apply hbody
          dsimp only [ShellRunner.runPreStage]
          cases hl : ShellRunner.run_loop O cfg ctx cmds st (ShellRunner.runUsed0 outer) with
          | mk r pr =>
            obtain ⟨st1, used1⟩ := pr
            have h1 : st1.popped = st.popped := by
              have := run_loop_popped O cfg ctx cmds st (ShellRunner.runUsed0 outer)
              rw [hl] at this
              exact this
            cases r with
            | error e => exact h1
            | ok b =>
              dsimp only [ShellRunner.runPostStage]
              have hq : ((ShellRunner.runFuel O cfg ctx n q (some used1) st1).state).popped
                  = st1.popped := ih q (some used1) st1 rfl
              cases hres : (ShellRunner.runFuel O cfg ctx n q (some used1) st1).result with
              | error e => simpa [hq] using h1
              | ok b2 => simpa [hq] using h1
      | some p =>
        have hp : ((ShellRunner.runFuel O cfg ctx n p
            (some (ShellRunner.runUsed0 outer)) st).state).popped = st.popped :=
          ih p (some (ShellRunner.runUsed0 outer)) st rfl
        cases post with
        | none =>
          rw [ShellRunner.runFuel]
          apply hbody
          dsimp only [ShellRunner.runPreStage]
          cases hres : (ShellRunner.runFuel O cfg ctx n p
              (some (ShellRunner.runUsed0 outer)) st).result with
          | error e => simpa [hres] using hp
          | ok u =>
            dsimp only
            cases hl : ShellRunner.run_loop O cfg ctx cmds
                (ShellRunner.runFuel O cfg ctx n p
                  (some (ShellRunner.runUsed0 outer)) st).state
                (if (ShellRunner.runUsed0 outer).isEmpty then ShellRunner.runUsed0 outer
                 else (ShellRunner.runFuel O cfg ctx n p
                   (some (ShellRunner.runUsed0 outer)) st).used) with
            | mk r pr =>
              obtain ⟨st1, used1⟩ := pr
              have h1 : st1.popped = st.popped := by
                have := run_loop_popped O cfg ctx cmds
                  (ShellRunner.runFuel O cfg ctx n p
                    (some (ShellRunner.runUsed0 outer)) st).state
                  (if (ShellRunner.runUsed0 outer).isEmpty then ShellRunner.runUsed0 outer
                   else (ShellRunner.runFuel O cfg ctx n p
                     (some (ShellRunner.runUsed0 outer)) st).used)
                rw [hl] at this
                rw [this, hp]
              cases r with
              | error e => exact h1
              | ok b => exact h1
        | some q =>
          rw [ShellRunner.runFuel]
          apply hbody
          dsimp only [ShellRunner.runPreStage]
          cases hres : (ShellRunner.runFuel O cfg ctx n p
              (some (ShellRunner.runUsed0 outer)) st).result with
          | error e => simpa [hres] using hp
          | ok u =>
            dsimp only
            cases hl : ShellRunner.run_loop O cfg ctx cmds
                (ShellRunner.runFuel O cfg ctx n p
                  (some (ShellRunner.runUsed0 outer)) st).state
                (if (ShellRunner.runUsed0 outer).isEmpty then ShellRunner.runUsed0 outer
                 else (ShellRunner.runFuel O cfg ctx n p
                   (some (ShellRunner.runUsed0 outer)) st).used) with
            | mk r pr =>
              obtain ⟨st1, used1⟩ := pr
              have h1 : st1.popped = st.popped := by
                have := run_loop_popped O cfg ctx cmds
                  (ShellRunner.runFuel O cfg ctx n p
                    (some (ShellRunner.runUsed0 outer)) st).state
                  (if (ShellRunner.runUsed0 outer).isEmpty then ShellRunner.runUsed0 outer
                   else (ShellRunner.runFuel O cfg ctx n p
                     (some (ShellRunner.runUsed0 outer)) st).used)
                rw [hl] at this
                rw [this, hp]
              cases r with
              | error e => exact h1
              | ok b =>
                dsimp only [ShellRunner.runPostStage]
                have hq2 : ((ShellRunner.runFuel O cfg ctx n q (some used1) st1).state).popped
                    = st1.popped := ih q (some used1) st1 rfl
                cases hres2 : (ShellRunner.runFuel O cfg ctx n q (some used1) st1).result with
                | error e => simpa [hq2] using h1
                | ok b2 => simpa [hq2] using h1

/-- Claim C10: calling `run(specfile, outer_used_sessions)` with an empty
set (rather than `None`) starts a fresh internal used-session set (the
empty set is falsy, so it is not aliased), leaves the caller's set empty,
and skips the end-of-run `pop_state` cleanup, which runs only when
`outer_used_sessions is None`. -/
theorem c10_run_with_empty_outer_set (O : Oracle) (cfg : SshConfig)
    (ctx : EnvMap) (sf : PSpecfile) (st : RunState) :
    ShellRunner.pythonTruthy (some []) = false ∧
    ShellRunner.runUsed0 (some []) = [] ∧
    (ShellRunner.run O cfg ctx sf (some []) st).state.popped = st.popped ∧
    ShellRunner.callerSetAfter (some [])
      (ShellRunner.run O cfg ctx sf (some []) st) = some [] :=
  ⟨rfl, rfl, runFuel_popped O cfg ctx (ShellRunner.fixDepth sf) sf (some []) st rfl, rfl⟩
